import Mathlib

/-!
Verification of the social-graph / presence core of the chat backend
(`src/controllers/users.ts` and the surrounding app state in `index.ts`).

The document store is embedded shallowly: a `Store` holds the three
collections (users, channels, servers) as lists of plain records; mongoose
queries (`findById`, `find({$in})`, `populate`, `save`) become list
operations on the store.  Request handlers become pure functions from a
store (plus the decoded request data) to a new store and a response value.

Parts of the repository that the handlers use but that are not part of the
provided sources (`src/models/user.ts`, `src/utils/dto.ts`,
`src/utils/functions.ts`, `src/socket/events.ts`) are modelled from the
specification; each such definition carries a doc comment saying so.
-/

/-- The `availability` field of a user record.  Modelled from the spec: the
`Availability` enum lives in `src/models/user.ts`, which is not among the
provided sources; the spec fixes its two states Online and Offline. -/
inductive Availability
  | Online
  | Offline
deriving DecidableEq

/-- A user (identity) document: `src/models/user.ts` fields used by the
controllers.  Relationship fields hold ids, as in the document store. -/
structure UserDoc where
  id : String
  availability : Availability
  friends : List String
  invitesTo : List String
  invitesFrom : List String
  joinedChannels : List String
  invitesToChannels : List String
deriving DecidableEq

/-- A channel document: id plus the owning server's id (`serverId`). -/
structure ChannelDoc where
  id : String
  serverId : String
deriving DecidableEq

/-- A server (community) document: id plus the owning identity's id. -/
structure ServerDoc where
  id : String
  owner : String
deriving DecidableEq

/-- The document store: the three collections the user controllers touch. -/
structure Store where
  users : List UserDoc
  channels : List ChannelDoc
  servers : List ServerDoc
deriving DecidableEq

/-- Lookup `User.findById(id)`: the document whose `id` matches, if any. -/
def findUser (st : Store) (uid : String) : Option UserDoc :=
  st.users.find? (fun v => v.id == uid)

/-- Lookup `Channel.findById(id)`. -/
def findChannel (st : Store) (cid : String) : Option ChannelDoc :=
  st.channels.find? (fun c => c.id == cid)

/-- Lookup `Server.findById(id)`; also what `populate('serverId')` resolves. -/
def findServer (st : Store) (sid : String) : Option ServerDoc :=
  st.servers.find? (fun s => s.id == sid)

/-- Persisting `user.save()`: write the document back, replacing the stored document
with the same id. -/
def saveUser (st : Store) (u : UserDoc) : Store :=
  { st with users := st.users.map (fun v => if v.id == u.id then u else v) }

/-- Resolution `populate({path: 'serverId'})` on a channel id from a user's channel
list: resolve the channel, then resolve its `serverId` to a server
document.  A reference that does not resolve yields `none` (mongoose
populates a missing ref as `null`, and a missing array element is
dropped). -/
def resolveChannelServer (st : Store) (cid : String) : Option ServerDoc :=
  (findChannel st cid).bind (fun c => findServer st c.serverId)

/-- JavaScript `Array.prototype.filter` with the element's index passed to
the callback, starting the index count at `i`. -/
def filterIdxFrom (p : Nat → ServerDoc → Bool) : Nat → List ServerDoc → List ServerDoc
  | _, [] => []
  | i, s :: l => if p i s then s :: filterIdxFrom p (i + 1) l else filterIdxFrom p (i + 1) l

/-- The dedup step of `getRelatedServers`:
`allServers.filter((server, i) => allServers.findIndex((s) => s.id === server.id) === i)`
(the handler's null entries were already removed by the earlier
`.filter(Boolean)`, so the callback's null test never fires here). -/
def dedupById (l : List ServerDoc) : List ServerDoc :=
  filterIdxFrom (fun i s => l.findIdx (fun t => t.id == s.id) == i) 0 l

/-- The `invitedServers` list of `getRelatedServers`: the user's
`invitesToChannels`, each populated with its owning server; entries whose
server reference does not resolve are dropped (`if (!server) return null`
followed by `.filter(Boolean)`).  `serverDTO` (from `src/utils/dto.ts`,
not among the provided sources) is modelled from the spec as preserving
the server record, in particular its id. -/
def invitedServers (st : Store) (u : UserDoc) : List ServerDoc :=
  u.invitesToChannels.filterMap (resolveChannelServer st)

/-- The `joinedServers` list of `getRelatedServers`: same resolution applied to the
user's `joinedChannels`. -/
def joinedServers (st : Store) (u : UserDoc) : List ServerDoc :=
  u.joinedChannels.filterMap (resolveChannelServer st)

/-- The `ownServers` list of `getRelatedServers`: `Server.find({ owner: userId })`. -/
def ownServers (st : Store) (uid : String) : List ServerDoc :=
  st.servers.filter (fun s => s.owner == uid)

/-- Concatenation `allServers = invitedServers.concat(joinedServers, ownServers)`. -/
def allServers (st : Store) (uid : String) (u : UserDoc) : List ServerDoc :=
  invitedServers st u ++ joinedServers st u ++ ownServers st uid

/-- Handler for `GET /users/{id}/related-servers` (`getRelatedServers`): resolve the
user, aggregate the three routes in order and deduplicate by server id.
`handleDocumentNotFound` (from `src/utils/functions.ts`, not among the
provided sources) is modelled from the spec as answering NotFound when the
identity is absent, here `none`. -/
def getRelatedServers (st : Store) (uid : String) : Option (List ServerDoc) :=
  (findUser st uid).map (fun u => dedupById (allServers st uid u))

/-- First-seen-wins deduplication by server id, phrased the way the spec
words it: walk the list, keep an element whose id has not been seen,
remember its id.  `banned` is the set of ids already seen. -/
def firstSeenFrom (banned : List String) : List ServerDoc → List ServerDoc
  | [] => []
  | s :: l =>
    if s.id ∈ banned then firstSeenFrom banned l
    else s :: firstSeenFrom (s.id :: banned) l

/-- Spec-side dedup: "drop later duplicates by server id using
first-seen-wins". -/
def firstSeenDedup (l : List ServerDoc) : List ServerDoc :=
  firstSeenFrom [] l

section DedupLemmas

theorem findIdx_append_all_false (p : ServerDoc → Bool) (A m : List ServerDoc)
    (hA : ∀ x ∈ A, p x = false) :
    (A ++ m).findIdx p = A.length + m.findIdx p := by
  induction A with
  | nil => simp
  | cons a A ih =>
    have ha : p a = false := hA a (by simp)
    have ih' := ih (fun x hx => hA x (by simp [hx]))
    simp [List.findIdx_cons, ha, ih']
    omega

theorem findIdx_append_any (p : ServerDoc → Bool) (A m : List ServerDoc)
    (hA : ∃ x ∈ A, p x = true) :
    (A ++ m).findIdx p = A.findIdx p ∧ A.findIdx p < A.length := by
  induction A with
  | nil => simp at hA
  | cons a A ih =>
    by_cases ha : p a = true
    · constructor
      · simp [List.findIdx_cons, ha]
      · simp [List.findIdx_cons, ha]
    · have ha' : p a = false := by
        cases h : p a
        · rfl
        · exact absurd h ha
      obtain ⟨x, hx, hpx⟩ := hA
      have hxA : x ∈ A := by
        rcases List.mem_cons.mp hx with h | h
        · subst h; exact absurd hpx ha
        · exact h
      obtain ⟨h1, h2⟩ := ih ⟨x, hxA, hpx⟩
      constructor
      · simp [List.findIdx_cons, ha', h1]
      · simp only [List.findIdx_cons, ha', cond_false, List.length_cons]
        omega

theorem firstSeenFrom_congr (l : List ServerDoc) :
    ∀ b₁ b₂ : List String, (∀ x, x ∈ b₁ ↔ x ∈ b₂) →
      firstSeenFrom b₁ l = firstSeenFrom b₂ l := by
  induction l with
  | nil => intro _ _ _; rfl
  | cons s l ih =>
    intro b₁ b₂ h
    by_cases hs : s.id ∈ b₁
    · have hs₂ : s.id ∈ b₂ := (h _).mp hs
      simp only [firstSeenFrom, if_pos hs, if_pos hs₂]
      exact ih b₁ b₂ h
    · have hs₂ : s.id ∉ b₂ := fun hx => hs ((h _).mpr hx)
      simp only [firstSeenFrom, if_neg hs, if_neg hs₂]
      refine congrArg _ ?_
      refine ih _ _ (fun x => ?_)
      simp only [List.mem_cons]
      exact or_congr Iff.rfl (h x)

theorem filterIdx_firstSeen (l : List ServerDoc) :
    ∀ A : List ServerDoc,
      filterIdxFrom (fun i s => (A ++ l).findIdx (fun t => t.id == s.id) == i) A.length l
        = firstSeenFrom (A.map ServerDoc.id) l := by
  induction l with
  | nil => intro A; rfl
  | cons s l ih =>
    intro A
    have hshift :
        filterIdxFrom (fun i t => (A ++ s :: l).findIdx (fun t' => t'.id == t.id) == i)
            (A.length + 1) l
          = firstSeenFrom ((A.map ServerDoc.id) ++ [s.id]) l := by
      have happ : (A ++ [s]) ++ l = A ++ s :: l := by
        simp
      have h := ih (A ++ [s])
      rw [happ] at h
      simpa using h
    by_cases hb : s.id ∈ A.map ServerDoc.id
    · -- the head's id already occurred among the first `A.length` elements
      obtain ⟨x, hxA, hxid⟩ := List.mem_map.mp hb
      have hany : ∃ y ∈ A, (y.id == s.id) = true := ⟨x, hxA, by simp [hxid]⟩
      obtain ⟨hfi, hlt⟩ := findIdx_append_any (fun t => t.id == s.id) A (s :: l) hany
      have hcond : ((A ++ s :: l).findIdx (fun t => t.id == s.id) == A.length) = false := by
        rw [hfi]
        simp only [beq_eq_false_iff_ne]
        omega
      have hcongr :
          firstSeenFrom (A.map ServerDoc.id ++ [s.id]) l
            = firstSeenFrom (A.map ServerDoc.id) l := by
        refine firstSeenFrom_congr l _ _ (fun x => ?_)
        simp only [List.mem_append, List.mem_singleton]
        constructor
        · rintro (h | h)
          · exact h
          · rw [h]; exact hb
        · intro h; exact Or.inl h
      simp only [filterIdxFrom, hcond, Bool.false_eq_true, if_false]
      rw [hshift, hcongr]
      simp only [firstSeenFrom, if_pos hb]
    · have hall : ∀ y ∈ A, (y.id == s.id) = false := by
        intro y hy
        simp only [beq_eq_false_iff_ne]
        intro heq
        exact hb (List.mem_map.mpr ⟨y, hy, heq⟩)
      have hfi := findIdx_append_all_false (fun t => t.id == s.id) A (s :: l) hall
      have hhead : (s :: l).findIdx (fun t => t.id == s.id) = 0 := by
        simp [List.findIdx_cons]
      have hcond : ((A ++ s :: l).findIdx (fun t => t.id == s.id) == A.length) = true := by
        rw [hfi, hhead]
        simp
      have hcongr :
          firstSeenFrom (A.map ServerDoc.id ++ [s.id]) l
            = firstSeenFrom (s.id :: A.map ServerDoc.id) l := by
        refine firstSeenFrom_congr l _ _ (fun x => ?_)
        simp only [List.mem_append, List.mem_singleton, List.mem_cons,
          List.not_mem_nil, or_false]
        exact Or.comm
      simp only [filterIdxFrom, hcond, if_true]
      rw [hshift, hcongr]
      simp only [firstSeenFrom, if_neg hb]

/-- The handler's findIndex-based dedup computes exactly the spec's
first-seen-wins dedup by server id. -/
theorem dedupById_eq_firstSeenDedup (l : List ServerDoc) :
    dedupById l = firstSeenDedup l := by
  have h := filterIdx_firstSeen l []
  simpa using h

theorem firstSeenFrom_sublist (l : List ServerDoc) :
    ∀ b : List String, (firstSeenFrom b l).Sublist l := by
  induction l with
  | nil => intro b; simp [firstSeenFrom]
  | cons s l ih =>
    intro b
    by_cases hs : s.id ∈ b
    · simp only [firstSeenFrom, if_pos hs]
      exact (ih b).cons s
    · simp only [firstSeenFrom, if_neg hs]
      exact (ih (s.id :: b)).cons₂ s

theorem firstSeenFrom_id_not_banned (l : List ServerDoc) :
    ∀ b : List String, ∀ s ∈ firstSeenFrom b l, s.id ∉ b := by
  induction l with
  | nil => intro b s hs; simp [firstSeenFrom] at hs
  | cons t l ih =>
    intro b s hs
    by_cases ht : t.id ∈ b
    · rw [firstSeenFrom, if_pos ht] at hs
      exact ih b s hs
    · rw [firstSeenFrom, if_neg ht] at hs
      rcases List.mem_cons.mp hs with h | h
      · rw [h]; exact ht
      · have := ih (t.id :: b) s h
        intro hb
        exact this (List.mem_cons_of_mem _ hb)

theorem firstSeenFrom_map_nodup (l : List ServerDoc) :
    ∀ b : List String, ((firstSeenFrom b l).map ServerDoc.id).Nodup := by
  induction l with
  | nil => intro b; simp [firstSeenFrom]
  | cons s l ih =>
    intro b
    by_cases hs : s.id ∈ b
    · rw [firstSeenFrom, if_pos hs]
      exact ih b
    · rw [firstSeenFrom, if_neg hs]
      rw [List.map_cons, List.nodup_cons]
      refine ⟨?_, ih (s.id :: b)⟩
      intro hmem
      obtain ⟨t, ht, htid⟩ := List.mem_map.mp hmem
      have := firstSeenFrom_id_not_banned l (s.id :: b) t ht
      rw [htid] at this
      exact this (List.mem_cons_self _ _)

theorem firstSeenFrom_mem_map (l : List ServerDoc) :
    ∀ (b : List String) (x : String),
      x ∈ (firstSeenFrom b l).map ServerDoc.id ↔ (x ∉ b ∧ x ∈ l.map ServerDoc.id) := by
  induction l with
  | nil => intro b x; simp [firstSeenFrom]
  | cons s l ih =>
    intro b x
    by_cases hs : s.id ∈ b
    · rw [firstSeenFrom, if_pos hs]
      rw [ih b x]
      simp only [List.map_cons, List.mem_cons]
      constructor
      · rintro ⟨hxb, hxl⟩
        exact ⟨hxb, Or.inr hxl⟩
      · rintro ⟨hxb, h | hxl⟩
        · rw [h] at hxb; exact absurd hs hxb
        · exact ⟨hxb, hxl⟩
    · rw [firstSeenFrom, if_neg hs]
      simp only [List.map_cons, List.mem_cons]
      rw [ih (s.id :: b) x]
      simp only [List.mem_cons]
      constructor
      · rintro (h | ⟨hxb, hxl⟩)
        · rw [h]
          exact ⟨hs, Or.inl rfl⟩
        · exact ⟨fun hb => hxb (Or.inr hb), Or.inr hxl⟩
      · rintro ⟨hxb, h | hxl⟩
        · exact Or.inl h
        · by_cases hxs : x = s.id
          · exact Or.inl hxs
          · exact Or.inr ⟨fun hb => (by rcases hb with hb | hb
                                        · exact hxs hb
                                        · exact hxb hb), hxl⟩

end DedupLemmas

/-- Claim C1: for every identity U found in the store,
`GET /users/{id}/related-servers` succeeds and returns the concatenation
of the servers reachable via U's pending channel invites, then via U's
joined channels, then the servers U owns, deduplicated by server id with
first-seen-wins: the ids in the result are pairwise distinct, the result
is a sublist of the route concatenation (so the three routes appear in
that order and every kept server sits at its earliest position), and a
server id appears in the result exactly when some route reaches it. -/
theorem getRelatedServers_dedup_first_seen (st : Store) (uid : String) (u : UserDoc)
    (hu : findUser st uid = some u) :
    ∃ r, getRelatedServers st uid = some r ∧
      r = firstSeenDedup (allServers st uid u) ∧
      ((r.map ServerDoc.id).Nodup ∧
        r.Sublist (allServers st uid u) ∧
        ∀ x, x ∈ r.map ServerDoc.id ↔ x ∈ (allServers st uid u).map ServerDoc.id) := by
  refine ⟨dedupById (allServers st uid u), ?_, ?_, ?_, ?_, ?_⟩
  · rw [getRelatedServers, hu, Option.map_some']
  · exact dedupById_eq_firstSeenDedup _
  · rw [dedupById_eq_firstSeenDedup]
    exact firstSeenFrom_map_nodup _ []
  · rw [dedupById_eq_firstSeenDedup]
    exact firstSeenFrom_sublist _ []
  · intro x
    rw [dedupById_eq_firstSeenDedup]
    rw [firstSeenDedup, firstSeenFrom_mem_map _ [] x]
    simp

/-- The spec's aggregation scenario: identity u1 owns server s1 (with
channel c1), is invited to channel c2 of server s2, and has joined
channel c3 of server s2. -/
def userU1 : UserDoc :=
  { id := "u1", availability := Availability.Offline, friends := [],
    invitesTo := [], invitesFrom := [],
    joinedChannels := ["c3"], invitesToChannels := ["c2"] }

/-- Store for the aggregation scenario. -/
def store1 : Store :=
  { users := [userU1],
    channels := [{ id := "c1", serverId := "s1" },
                 { id := "c2", serverId := "s2" },
                 { id := "c3", serverId := "s2" }],
    servers := [{ id := "s1", owner := "u1" }, { id := "s2", owner := "b1" }] }

/-- Witness for claim C1 at the spec's scenario store. -/
theorem getRelatedServers_dedup_first_seen_witness :
    findUser store1 "u1" = some userU1 ∧
    (∃ r, getRelatedServers store1 "u1" = some r ∧
      r = firstSeenDedup (allServers store1 "u1" userU1) ∧
      (((r.map ServerDoc.id).Nodup ∧
        r.Sublist (allServers store1 "u1" userU1) ∧
        ∀ x, x ∈ r.map ServerDoc.id ↔
          x ∈ (allServers store1 "u1" userU1).map ServerDoc.id))) :=
  ⟨by decide, getRelatedServers_dedup_first_seen store1 "u1" userU1 (by decide)⟩

/-- The spec scenario's expected output, exactly: `[S2, S1]`. -/
theorem getRelatedServers_scenario_exact : getRelatedServers store1 "u1"
    = some [{ id := "s2", owner := "b1" }, { id := "s1", owner := "u1" }] := by decide

theorem resolveChannelServer_mem (st : Store) (cid : String) (srv : ServerDoc)
    (h : resolveChannelServer st cid = some srv) : srv ∈ st.servers := by
  rw [resolveChannelServer] at h
  obtain ⟨c, _, hs⟩ := Option.bind_eq_some.mp h
  exact List.mem_of_find?_eq_some hs

/-- Claim C6: if the identity exists, `getRelatedServers` always
succeeds; a channel whose `serverId` does not resolve contributes
nothing (every server in the result is a stored server), while every
channel reference that does resolve still contributes its server. -/
theorem getRelatedServers_dangling_tolerated (st : Store) (uid : String) (u : UserDoc)
    (hu : findUser st uid = some u) :
    ∃ r, getRelatedServers st uid = some r ∧
      (∀ s ∈ r, s ∈ st.servers) ∧
      (∀ cid ∈ u.invitesToChannels ++ u.joinedChannels,
        ∀ srv, resolveChannelServer st cid = some srv → srv.id ∈ r.map ServerDoc.id) := by
  refine ⟨dedupById (allServers st uid u), ?_, ?_, ?_⟩
  · rw [getRelatedServers, hu, Option.map_some']
  · intro s hs
    have hsub : (dedupById (allServers st uid u)).Sublist (allServers st uid u) := by
      rw [dedupById_eq_firstSeenDedup]
      exact firstSeenFrom_sublist _ []
    have hall : s ∈ allServers st uid u := hsub.subset hs
    rcases List.mem_append.mp hall with hil | hown
    · rcases List.mem_append.mp hil with hi | hj
      · obtain ⟨cid, _, hres⟩ := List.mem_filterMap.mp hi
        exact resolveChannelServer_mem st cid s hres
      · obtain ⟨cid, _, hres⟩ := List.mem_filterMap.mp hj
        exact resolveChannelServer_mem st cid s hres
    · exact (List.mem_filter.mp hown).1
  · intro cid hcid srv hres
    have hmem : srv ∈ allServers st uid u := by
      rcases List.mem_append.mp hcid with hi | hj
      · exact List.mem_append.mpr (Or.inl (List.mem_append.mpr
          (Or.inl (List.mem_filterMap.mpr ⟨cid, hi, hres⟩))))
      · exact List.mem_append.mpr (Or.inl (List.mem_append.mpr
          (Or.inr (List.mem_filterMap.mpr ⟨cid, hj, hres⟩))))
    rw [dedupById_eq_firstSeenDedup, firstSeenDedup, firstSeenFrom_mem_map _ [] srv.id]
    exact ⟨by simp, List.mem_map.mpr ⟨srv, hmem, rfl⟩⟩

/-- Identity for the dangling-reference scenario: invited to a channel
whose server is missing from the store, and to one that resolves. -/
def userU6 : UserDoc :=
  { id := "u6", availability := Availability.Offline, friends := [],
    invitesTo := [], invitesFrom := [],
    joinedChannels := [], invitesToChannels := ["cx", "c2"] }

/-- Store whose channel "cx" carries a dangling `serverId`. -/
def store6 : Store :=
  { users := [userU6],
    channels := [{ id := "cx", serverId := "gone" },
                 { id := "c2", serverId := "s2" }],
    servers := [{ id := "s2", owner := "b1" }] }

/-- Witness for claim C6 at the dangling-reference store. -/
theorem getRelatedServers_dangling_tolerated_witness :
    findUser store6 "u6" = some userU6 ∧
    (∃ r, getRelatedServers store6 "u6" = some r ∧
      (∀ s ∈ r, s ∈ store6.servers) ∧
      (∀ cid ∈ userU6.invitesToChannels ++ userU6.joinedChannels,
        ∀ srv, resolveChannelServer store6 cid = some srv →
          srv.id ∈ r.map ServerDoc.id)) :=
  ⟨by decide, getRelatedServers_dangling_tolerated store6 "u6" userU6 (by decide)⟩

/-- The dangling channel contributes nothing; the rest is returned. -/
theorem getRelatedServers_dangling_exact :
    getRelatedServers store6 "u6" = some [{ id := "s2", owner := "b1" }] := by decide

/-- The decoded `friends` field of a `PATCH /users/{id}/friends` body:
absent, present but not an array of strings, or an array of strings. -/
inductive FriendsBody
  | absent
  | notArray
  | arr (l : List String)
deriving DecidableEq

/-- Modelled from the spec: "id-shaped strings".  An id-shaped string is a
24-character lowercase hexadecimal string (a Mongo ObjectId). -/
def isIdShaped (s : String) : Bool :=
  s.length == 24 &&
    s.toList.all (fun c => (48 ≤ c.toNat && c.toNat ≤ 57) || (97 ≤ c.toNat && c.toNat ≤ 102))

/-- Modelled from the spec: `validateUserField(friendIds, 'friends')` lives
in `src/models/user.ts`, which is not among the provided sources; the spec
requires the field to be "a non-empty array of id-shaped strings". -/
def validateFriendsField : FriendsBody → Bool
  | FriendsBody.arr l => !l.isEmpty && l.all isIdShaped
  | _ => false

/-- The spec's error taxonomy (section 7), as far as the user controllers
raise it.  The numeric HTTP status is attached by middleware outside the
provided sources. -/
inductive ErrKind
  | ValidationFailed
  | NotFound
deriving DecidableEq

deriving instance DecidableEq for Except

/-- The `req.body.friends` value read back as a string list; only the array case
reaches the code after validation. -/
def bodyFriends : FriendsBody → List String
  | FriendsBody.arr l => l
  | _ => []

/-- JavaScript `[...new Set(l)]`: keep the first occurrence of each
element, in order.  `seen` accumulates the elements already kept. -/
def dedupFirstAux (seen : List String) : List String → List String
  | [] => []
  | x :: l =>
    if x ∈ seen then dedupFirstAux seen l
    else x :: dedupFirstAux (x :: seen) l

/-- Dedup `[...new Set(l)]` with no elements seen yet. -/
def dedupFirst (l : List String) : List String :=
  dedupFirstAux [] l

/-- Resolution `populate('friends')`: resolve each stored friend id to its user
document; a reference that resolves to no document is dropped from the
populated array (mongoose removes missing refs from populated arrays). -/
def populatedFriends (st : Store) (u : UserDoc) : List UserDoc :=
  u.friends.filterMap (findUser st)

/-- Handler for `PATCH /users/{id}/friends?action={add|delete}` (`updateFriends`).
Returns the store after the operation together with the response: the
resulting friend id list on success, an error kind otherwise.
Body and query validation happen before any store access; then the
candidate list is stripped of the caller's own id
(`friendIds.filter((id) => id !== userId)`).  `delete` keeps the populated
friends whose id is not among the candidates; `add` unions the populated
friend ids with the ids of the candidate users that exist in the store
(`User.find({ _id: { $in: friendIds } })`), deduplicated by `new Set`. -/
def updateFriends (st : Store) (uid : String) (body : FriendsBody)
    (action : Option String) : Store × Except ErrKind (List String) :=
  if !validateFriendsField body then
    (st, Except.error ErrKind.ValidationFailed)
  else if action != some "add" && action != some "delete" then
    (st, Except.error ErrKind.ValidationFailed)
  else
    let friendIds := (bodyFriends body).filter (fun i => i != uid)
    match findUser st uid with
    | none => (st, Except.error ErrKind.NotFound)
    | some user =>
      if action == some "delete" then
        let newFriends :=
          ((populatedFriends st user).filter
            (fun f => decide (f.id ∉ friendIds))).map UserDoc.id
        (saveUser st { user with friends := newFriends }, Except.ok newFriends)
      else
        let foundUsers := st.users.filter (fun v => decide (v.id ∈ friendIds))
        let newFriends :=
          dedupFirst ((populatedFriends st user).map UserDoc.id ++
            foundUsers.map UserDoc.id)
        (saveUser st { user with friends := newFriends }, Except.ok newFriends)

section UpdateFriendsLemmas

theorem findUser_id_eq (st : Store) (uid : String) (u : UserDoc)
    (h : findUser st uid = some u) : u.id = uid := by
  have := List.find?_some h
  simpa using this

theorem findUser_isSome_iff (st : Store) (x : String) :
    (findUser st x).isSome ↔ ∃ v ∈ st.users, v.id = x := by
  constructor
  · intro h
    obtain ⟨u, hu⟩ := Option.isSome_iff_exists.mp h
    exact ⟨u, List.mem_of_find?_eq_some hu, findUser_id_eq st x u hu⟩
  · rintro ⟨v, hv, hid⟩
    rw [findUser]
    cases h : st.users.find? (fun w => w.id == x) with
    | some w => simp
    | none =>
      have := List.find?_eq_none.mp h v hv
      simp [hid] at this

theorem dedupFirstAux_mem (l : List String) :
    ∀ (seen : List String) (x : String),
      x ∈ dedupFirstAux seen l ↔ (x ∉ seen ∧ x ∈ l) := by
  induction l with
  | nil => intro seen x; simp [dedupFirstAux]
  | cons y l ih =>
    intro seen x
    by_cases hy : y ∈ seen
    · rw [dedupFirstAux, if_pos hy, ih seen x]
      simp only [List.mem_cons]
      constructor
      · rintro ⟨hxs, hxl⟩; exact ⟨hxs, Or.inr hxl⟩
      · rintro ⟨hxs, h | hxl⟩
        · rw [h] at hxs; exact absurd hy hxs
        · exact ⟨hxs, hxl⟩
    · rw [dedupFirstAux, if_neg hy]
      simp only [List.mem_cons]
      rw [ih (y :: seen) x]
      simp only [List.mem_cons]
      constructor
      · rintro (h | ⟨hxs, hxl⟩)
        · rw [h]; exact ⟨hy, Or.inl rfl⟩
        · exact ⟨fun hs => hxs (Or.inr hs), Or.inr hxl⟩
      · rintro ⟨hxs, h | hxl⟩
        · exact Or.inl h
        · by_cases hxy : x = y
          · exact Or.inl hxy
          · exact Or.inr ⟨fun hs => (by rcases hs with hs | hs
                                        · exact hxy hs
                                        · exact hxs hs), hxl⟩

theorem dedupFirstAux_nodup (l : List String) :
    ∀ seen : List String, (dedupFirstAux seen l).Nodup := by
  induction l with
  | nil => intro seen; simp [dedupFirstAux]
  | cons y l ih =>
    intro seen
    by_cases hy : y ∈ seen
    · rw [dedupFirstAux, if_pos hy]; exact ih seen
    · rw [dedupFirstAux, if_neg hy, List.nodup_cons]
      refine ⟨?_, ih (y :: seen)⟩
      intro hmem
      exact ((dedupFirstAux_mem l (y :: seen) y).mp hmem).1 (List.mem_cons_self _ _)

theorem dedupFirst_mem (l : List String) (x : String) :
    x ∈ dedupFirst l ↔ x ∈ l := by
  rw [dedupFirst, dedupFirstAux_mem l [] x]
  simp

theorem populatedFriends_mem_map (st : Store) (u : UserDoc) (x : String) :
    x ∈ (populatedFriends st u).map UserDoc.id ↔
      (x ∈ u.friends ∧ (findUser st x).isSome) := by
  constructor
  · intro h
    obtain ⟨v, hv, hid⟩ := List.mem_map.mp h
    obtain ⟨f, hf, hres⟩ := List.mem_filterMap.mp hv
    have hfid : v.id = f := findUser_id_eq st f v hres
    have hxf : x = f := by rw [← hid, hfid]
    constructor
    · rw [hxf]; exact hf
    · rw [hxf, hres]; rfl
  · rintro ⟨hf, hsome⟩
    obtain ⟨v, hv⟩ := Option.isSome_iff_exists.mp hsome
    refine List.mem_map.mpr ⟨v, List.mem_filterMap.mpr ⟨x, hf, hv⟩, ?_⟩
    exact findUser_id_eq st x v hv

theorem find?_map_save_other (u' : UserDoc) (vid : String) (h : vid ≠ u'.id) :
    ∀ us : List UserDoc,
      (us.map (fun v => if v.id == u'.id then u' else v)).find? (fun v => v.id == vid)
        = us.find? (fun v => v.id == vid) := by
  intro us
  induction us with
  | nil => rfl
  | cons v us ih =>
    rw [List.map_cons]
    by_cases hv : v.id = u'.id
    · rw [if_pos (by simp [hv])]
      have hu'vid : (u'.id == vid) = false := by
        simp only [beq_eq_false_iff_ne]
        exact fun he => h he.symm
      have hvvid : (v.id == vid) = false := by
        simp only [beq_eq_false_iff_ne, hv]
        exact fun he => h he.symm
      simp only [List.find?_cons, hu'vid, hvvid]
      exact ih
    · rw [if_neg (by simp [hv])]
      by_cases hvv : (v.id == vid) = true
      · simp only [List.find?_cons, hvv]
      · have hvv' : (v.id == vid) = false := Bool.eq_false_iff.mpr hvv
        simp only [List.find?_cons, hvv']
        exact ih

theorem findUser_saveUser_other (st : Store) (u' : UserDoc) (vid : String)
    (h : vid ≠ u'.id) :
    findUser (saveUser st u') vid = findUser st vid :=
  find?_map_save_other u' vid h st.users

theorem find?_map_save_self (u' : UserDoc) (uid : String) (hid : u'.id = uid) :
    ∀ (us : List UserDoc) (u : UserDoc),
      us.find? (fun v => v.id == uid) = some u →
        (us.map (fun v => if v.id == u'.id then u' else v)).find? (fun v => v.id == uid)
          = some u' := by
  intro us
  induction us with
  | nil => intro u h; simp at h
  | cons v us ih =>
    intro u h
    rw [List.map_cons]
    by_cases hv : v.id = uid
    · rw [if_pos (by simp [hv, hid])]
      have hu'uid : (u'.id == uid) = true := by simp [hid]
      simp only [List.find?_cons, hu'uid]
    · have hvf : (v.id == uid) = false := by simp [hv]
      simp only [List.find?_cons, hvf] at h
      rw [if_neg (by simp [hv, hid])]
      simp only [List.find?_cons, hvf]
      exact ih u h

theorem findUser_saveUser_self (st : Store) (uid : String) (u u' : UserDoc)
    (hu : findUser st uid = some u) (hid : u'.id = uid) :
    findUser (saveUser st u') uid = some u' :=
  find?_map_save_self u' uid hid st.users u hu

end UpdateFriendsLemmas

/-- Claim C3: a `PATCH /users/{id}/friends` request whose `friends` body
field fails validation (missing, not an array, empty, or containing a
non-id-shaped string) or whose `action` query parameter is not `add` or
`delete` fails with `ValidationFailed`, and the store is returned exactly
as it was: the failure is detected before any mutation. -/
theorem updateFriends_validation_fail_closed (st : Store) (uid : String)
    (body : FriendsBody) (action : Option String)
    (h : validateFriendsField body = false ∨
      (action ≠ some "add" ∧ action ≠ some "delete")) :
    updateFriends st uid body action = (st, Except.error ErrKind.ValidationFailed) := by
  rcases h with h | ⟨h1, h2⟩
  · unfold updateFriends
    rw [h]
    simp
  · by_cases hv : validateFriendsField body = true
    · have hb1 : (action != some "add") = true := by simpa using h1
      have hb2 : (action != some "delete") = true := by simpa using h2
      unfold updateFriends
      rw [hv, hb1, hb2]
      simp
    · have hv' : validateFriendsField body = false := Bool.eq_false_iff.mpr hv
      unfold updateFriends
      rw [hv']
      simp

/-- The friend id list produced by the `add` branch of `updateFriends`. -/
def addFriendIds (st : Store) (uid : String) (user : UserDoc) (cands : List String) :
    List String :=
  dedupFirst ((populatedFriends st user).map UserDoc.id ++
    (st.users.filter
      (fun v => decide (v.id ∈ cands.filter (fun i => i != uid)))).map UserDoc.id)

/-- The friend id list produced by the `delete` branch of `updateFriends`. -/
def deleteFriendIds (st : Store) (uid : String) (user : UserDoc) (cands : List String) :
    List String :=
  ((populatedFriends st user).filter
    (fun f => decide (f.id ∉ cands.filter (fun i => i != uid)))).map UserDoc.id

theorem updateFriends_add_eq (st : Store) (uid : String) (cands : List String)
    (user : UserDoc)
    (hval : validateFriendsField (FriendsBody.arr cands) = true)
    (hu : findUser st uid = some user) :
    updateFriends st uid (FriendsBody.arr cands) (some "add")
      = (saveUser st { user with friends := addFriendIds st uid user cands },
         Except.ok (addFriendIds st uid user cands)) := by
  unfold updateFriends addFriendIds
  rw [hval, hu]
  simp [bodyFriends]

theorem updateFriends_delete_eq (st : Store) (uid : String) (cands : List String)
    (user : UserDoc)
    (hval : validateFriendsField (FriendsBody.arr cands) = true)
    (hu : findUser st uid = some user) :
    updateFriends st uid (FriendsBody.arr cands) (some "delete")
      = (saveUser st { user with friends := deleteFriendIds st uid user cands },
         Except.ok (deleteFriendIds st uid user cands)) := by
  unfold updateFriends deleteFriendIds
  rw [hval, hu]
  simp [bodyFriends]

theorem mem_addFriendIds (st : Store) (uid : String) (user : UserDoc)
    (cands : List String) (x : String) :
    x ∈ addFriendIds st uid user cands ↔
      ((x ∈ user.friends ∧ (findUser st x).isSome) ∨
        (x ∈ cands ∧ x ≠ uid ∧ (findUser st x).isSome)) := by
  unfold addFriendIds
  rw [dedupFirst_mem, List.mem_append, populatedFriends_mem_map]
  refine or_congr Iff.rfl ?_
  constructor
  · intro h
    obtain ⟨v, hv, hid⟩ := List.mem_map.mp h
    obtain ⟨hvmem, hvc⟩ := List.mem_filter.mp hv
    have hxc : x ∈ cands.filter (fun i => i != uid) := by
      rw [← hid]; exact of_decide_eq_true hvc
    obtain ⟨hxcands, hxuid⟩ := List.mem_filter.mp hxc
    refine ⟨hxcands, by simpa using hxuid, ?_⟩
    exact (findUser_isSome_iff st x).mpr ⟨v, hvmem, hid⟩
  · rintro ⟨hxcands, hxuid, hsome⟩
    obtain ⟨v, hvmem, hid⟩ := (findUser_isSome_iff st x).mp hsome
    refine List.mem_map.mpr ⟨v, List.mem_filter.mpr ⟨hvmem, ?_⟩, hid⟩
    refine decide_eq_true ?_
    rw [hid]
    exact List.mem_filter.mpr ⟨hxcands, by simpa using hxuid⟩

theorem mem_deleteFriendIds (st : Store) (uid : String) (user : UserDoc)
    (cands : List String) (x : String) :
    x ∈ deleteFriendIds st uid user cands ↔
      ((x ∈ user.friends ∧ (findUser st x).isSome) ∧ ¬(x ∈ cands ∧ x ≠ uid)) := by
  unfold deleteFriendIds
  constructor
  · intro h
    obtain ⟨v, hv, hid⟩ := List.mem_map.mp h
    obtain ⟨hvmem, hvc⟩ := List.mem_filter.mp hv
    have hnotin : v.id ∉ cands.filter (fun i => i != uid) := of_decide_eq_true hvc
    constructor
    · rw [← populatedFriends_mem_map]
      exact List.mem_map.mpr ⟨v, hvmem, hid⟩
    · rintro ⟨hxc, hxuid⟩
      refine hnotin ?_
      rw [hid]
      exact List.mem_filter.mpr ⟨hxc, by simpa using hxuid⟩
  · rintro ⟨hpop, hnot⟩
    rw [← populatedFriends_mem_map] at hpop
    obtain ⟨v, hvmem, hid⟩ := List.mem_map.mp hpop
    refine List.mem_map.mpr ⟨v, List.mem_filter.mpr ⟨hvmem, ?_⟩, hid⟩
    refine decide_eq_true ?_
    intro hmem
    obtain ⟨hc, huid⟩ := List.mem_filter.mp hmem
    exact hnot ⟨by rw [← hid]; exact hc, by rw [← hid]; simpa using huid⟩

/-- Witness for claim C3: an absent `friends` field and a missing
`action` parameter on a store holding one identity. -/
theorem updateFriends_validation_fail_closed_witness :
    (validateFriendsField FriendsBody.absent = false ∨
      ((none : Option String) ≠ some "add" ∧ (none : Option String) ≠ some "delete")) ∧
    updateFriends store1 "u1" FriendsBody.absent none
      = (store1, Except.error ErrKind.ValidationFailed) :=
  ⟨Or.inl (by decide),
    updateFriends_validation_fail_closed store1 "u1" FriendsBody.absent none
      (Or.inl (by decide))⟩

/-- An id-shaped user id for the friend-update scenarios. -/
def idA24 : String := "aaaaaaaaaaaaaaaaaaaaaaaa"

/-- An id-shaped id that matches no stored identity. -/
def idB24 : String := "bbbbbbbbbbbbbbbbbbbbbbbb"

/-- An id-shaped id of a stored friend. -/
def idC24 : String := "cccccccccccccccccccccccc"

/-- The identity issuing the friend updates; no friends yet. -/
def userA2 : UserDoc :=
  { id := idA24, availability := Availability.Offline, friends := [],
    invitesTo := [], invitesFrom := [], joinedChannels := [], invitesToChannels := [] }

/-- A store holding only `userA2`: the candidate `idB24` exists nowhere. -/
def store2 : Store := { users := [userA2], channels := [], servers := [] }

/-- Counterexample to claim C2 as stated: adding the (id-shaped,
non-self) candidate `idB24`, which matches no stored identity, yields an
empty friend list, not the claimed set union `{idB24}` of the existing
friends and the candidates. -/
theorem updateFriends_add_union_cex :
    updateFriends store2 idA24 (FriendsBody.arr [idB24]) (some "add")
      = (store2, Except.ok ([] : List String)) ∧
    findUser store2 idA24 = some userA2 ∧ userA2.friends = [] ∧
    idB24 ∈ [idB24] ∧ idB24 ≠ idA24 := by decide

/-- Claim C2 (amended): for a target whose stored friend list does not
contain its own id and whose entries all resolve to stored identities,
and a validated candidate list: action `add` sets the target's friends to
the union of the existing friends and those candidate ids that resolve to
a stored identity, the target's own id excluded and duplicates collapsed;
action `delete` sets the target's friends to the set difference of the
existing friends minus the candidate ids. -/
theorem updateFriends_bulk_set_semantics (st : Store) (uid : String) (user : UserDoc)
    (cands : List String)
    (hval : validateFriendsField (FriendsBody.arr cands) = true)
    (hu : findUser st uid = some user)
    (hirr : uid ∉ user.friends)
    (href : ∀ f ∈ user.friends, (findUser st f).isSome) :
    (∃ st' fr, updateFriends st uid (FriendsBody.arr cands) (some "add")
        = (st', Except.ok fr) ∧ fr.Nodup ∧
      (∀ x, x ∈ fr ↔
        (x ∈ user.friends ∨ (x ∈ cands ∧ x ≠ uid ∧ (findUser st x).isSome)))) ∧
    (∃ st' fr, updateFriends st uid (FriendsBody.arr cands) (some "delete")
        = (st', Except.ok fr) ∧
      (∀ x, x ∈ fr ↔ (x ∈ user.friends ∧ x ∉ cands))) := by
  constructor
  · refine ⟨_, addFriendIds st uid user cands,
      updateFriends_add_eq st uid cands user hval hu, dedupFirstAux_nodup _ [], ?_⟩
    intro x
    rw [mem_addFriendIds]
    constructor
    · rintro (⟨hf, _⟩ | hc)
      · exact Or.inl hf
      · exact Or.inr hc
    · rintro (hf | hc)
      · exact Or.inl ⟨hf, href x hf⟩
      · exact Or.inr hc
  · refine ⟨_, deleteFriendIds st uid user cands,
      updateFriends_delete_eq st uid cands user hval hu, ?_⟩
    intro x
    rw [mem_deleteFriendIds]
    constructor
    · rintro ⟨⟨hf, _⟩, hnot⟩
      refine ⟨hf, fun hxc => hnot ⟨hxc, ?_⟩⟩
      intro hxu
      rw [hxu] at hf
      exact hirr hf
    · rintro ⟨hf, hnc⟩
      exact ⟨⟨hf, href x hf⟩, fun hx => hnc hx.1⟩

/-- The friend-update target with one resolvable friend `idC24`. -/
def userA2' : UserDoc :=
  { id := idA24, availability := Availability.Offline, friends := [idC24],
    invitesTo := [], invitesFrom := [], joinedChannels := [], invitesToChannels := [] }

/-- A stored identity that can be added as a friend. -/
def userB2 : UserDoc :=
  { id := idB24, availability := Availability.Offline, friends := [],
    invitesTo := [], invitesFrom := [], joinedChannels := [], invitesToChannels := [] }

/-- The stored friend `idC24`. -/
def userC2 : UserDoc :=
  { id := idC24, availability := Availability.Offline, friends := [idA24],
    invitesTo := [], invitesFrom := [], joinedChannels := [], invitesToChannels := [] }

/-- Store for the amended bulk-update semantics: target `userA2'` is
friends with `userC2`, and `userB2` exists to be added. -/
def store2b : Store := { users := [userA2', userB2, userC2], channels := [], servers := [] }

/-- Witness for claim C2 (amended) at the three-user store. -/
theorem updateFriends_bulk_set_semantics_witness :
    (validateFriendsField (FriendsBody.arr [idB24]) = true ∧
      findUser store2b idA24 = some userA2' ∧
      idA24 ∉ userA2'.friends ∧
      (∀ f ∈ userA2'.friends, (findUser store2b f).isSome)) ∧
    ((∃ st' fr, updateFriends store2b idA24 (FriendsBody.arr [idB24]) (some "add")
        = (st', Except.ok fr) ∧ fr.Nodup ∧
      (∀ x, x ∈ fr ↔
        (x ∈ userA2'.friends ∨
          (x ∈ [idB24] ∧ x ≠ idA24 ∧ (findUser store2b x).isSome)))) ∧
    (∃ st' fr, updateFriends store2b idA24 (FriendsBody.arr [idB24]) (some "delete")
        = (st', Except.ok fr) ∧
      (∀ x, x ∈ fr ↔ (x ∈ userA2'.friends ∧ x ∉ [idB24])))) :=
  ⟨⟨by decide, by decide, by decide, by decide⟩,
    updateFriends_bulk_set_semantics store2b idA24 userA2' [idB24]
      (by decide) (by decide) (by decide) (by decide)⟩

/-- Claim C9: with a validated candidate list on an existing target, the
`add` action succeeds, and a candidate id that matches no stored identity
does not appear in the resulting friend list: it is silently dropped, not
stored and not an error. -/
theorem updateFriends_add_unknown_dropped (st : Store) (uid : String) (user : UserDoc)
    (cands : List String) (c : String)
    (hval : validateFriendsField (FriendsBody.arr cands) = true)
    (hu : findUser st uid = some user)
    (hc : c ∈ cands)
    (hnx : findUser st c = none) :
    ∃ st' fr, updateFriends st uid (FriendsBody.arr cands) (some "add")
      = (st', Except.ok fr) ∧ c ∉ fr := by
  refine ⟨_, addFriendIds st uid user cands,
    updateFriends_add_eq st uid cands user hval hu, ?_⟩
  rw [mem_addFriendIds]
  rintro (⟨_, hs⟩ | ⟨_, _, hs⟩) <;> rw [hnx] at hs <;> exact absurd hs (by simp)

/-- Witness for claim C9: candidate `idB24` exists nowhere in `store2`. -/
theorem updateFriends_add_unknown_dropped_witness :
    (validateFriendsField (FriendsBody.arr [idB24]) = true ∧
      findUser store2 idA24 = some userA2 ∧
      idB24 ∈ [idB24] ∧ findUser store2 idB24 = none) ∧
    (∃ st' fr, updateFriends store2 idA24 (FriendsBody.arr [idB24]) (some "add")
      = (st', Except.ok fr) ∧ idB24 ∉ fr) :=
  ⟨⟨by decide, by decide, by decide, by decide⟩,
    updateFriends_add_unknown_dropped store2 idA24 userA2 [idB24] idB24
      (by decide) (by decide) (by decide) (by decide)⟩

theorem updateFriends_store_cases (st : Store) (uid : String) (body : FriendsBody)
    (action : Option String) :
    (updateFriends st uid body action).1 = st ∨
    ∃ u' : UserDoc, u'.id = uid ∧ (updateFriends st uid body action).1 = saveUser st u' := by
  by_cases hv : validateFriendsField body = true
  · by_cases ha : (action != some "add" && action != some "delete") = true
    · left
      unfold updateFriends
      rw [hv, ha]
      simp
    · have ha' : (action != some "add" && action != some "delete") = false :=
        Bool.eq_false_iff.mpr ha
      cases hfu : findUser st uid with
      | none =>
        left
        unfold updateFriends
        rw [hv, ha', hfu]
        simp
      | some user =>
        right
        have hid : user.id = uid := findUser_id_eq st uid user hfu
        by_cases hd : (action == some "delete") = true
        · refine ⟨{ user with friends :=
              ((populatedFriends st user).filter
                (fun f => decide (f.id ∉
                  (bodyFriends body).filter (fun i => i != uid)))).map UserDoc.id },
            hid, ?_⟩
          unfold updateFriends
          rw [hv, ha', hfu, hd]
          simp
        · have hd' : (action == some "delete") = false := Bool.eq_false_iff.mpr hd
          refine ⟨{ user with friends :=
              (dedupFirst ((populatedFriends st user).map UserDoc.id ++
                (st.users.filter
                  (fun v => decide (v.id ∈
                    (bodyFriends body).filter (fun i => i != uid)))).map UserDoc.id)) },
            hid, ?_⟩
          unfold updateFriends
          rw [hv, ha', hfu, hd']
          simp
  · left
    unfold updateFriends
    rw [Bool.eq_false_iff.mpr hv]
    simp

/-- Claim C7: the bulk friend update writes only the requesting
identity's document.  For any store, body and action, every identity
other than the target reads back unchanged after the operation. -/
theorem updateFriends_frame (st : Store) (uid : String) (body : FriendsBody)
    (action : Option String) (vid : String) (h : vid ≠ uid) :
    findUser (updateFriends st uid body action).1 vid = findUser st vid := by
  rcases updateFriends_store_cases st uid body action with hst | ⟨u', hid, hst⟩
  · rw [hst]
  · rw [hst]
    exact findUser_saveUser_other st u' vid (by rw [hid]; exact h)

/-- Witness for claim C7: adding `idB24` as a friend of `idA24` leaves
the other stored identities (`idB24`, `idC24`) unchanged. -/
theorem updateFriends_frame_witness :
    (idB24 ≠ idA24 ∧ idC24 ≠ idA24) ∧
    findUser (updateFriends store2b idA24 (FriendsBody.arr [idB24]) (some "add")).1 idB24
      = findUser store2b idB24 ∧
    findUser (updateFriends store2b idA24 (FriendsBody.arr [idB24]) (some "add")).1 idC24
      = findUser store2b idC24 :=
  ⟨⟨by decide, by decide⟩,
    updateFriends_frame store2b idA24 (FriendsBody.arr [idB24]) (some "add") idB24
      (by decide),
    updateFriends_frame store2b idA24 (FriendsBody.arr [idB24]) (some "add") idC24
      (by decide)⟩

/-- The channel aggregation computed inside `getRelatedChannels`:
`Channel.find({$or: [{_id: {$in: inviteChannelsIDs}}, {serverId: {$in: ownServersIDs}}]})`
where `inviteChannelsIDs` are the user's `invitesToChannels` and
`ownServersIDs` the ids of the servers the user owns; `none` when the
identity is absent (`handleDocumentNotFound`). -/
def relatedChannelsQuery (st : Store) (uid : String) : Option (List ChannelDoc) :=
  (findUser st uid).map (fun u =>
    let ownServersIDs := (st.servers.filter (fun s => s.owner == uid)).map ServerDoc.id
    let inviteChannelsIDs := u.invitesToChannels
    st.channels.filter
      (fun c => decide (c.id ∈ inviteChannelsIDs) || decide (c.serverId ∈ ownServersIDs)))

/-- What `GET /users/{id}/related-channels` produces: the HTTP status and
body sent to the client, and the value that reaches `console.log`. -/
structure RelatedChannelsOutcome where
  status : Nat
  body : Option (List ChannelDoc)
  logged : Option (List ChannelDoc)
deriving DecidableEq

/-- Handler for `GET /users/{id}/related-channels` (`getRelatedChannels`): the
handler computes the channel aggregation inside the promise chain but
only passes it to `console.log`; the response is ended unconditionally
with `res.status(200).end()` and carries no body. -/
def getRelatedChannels (st : Store) (uid : String) : RelatedChannelsOutcome :=
  { status := 200, body := none, logged := relatedChannelsQuery st uid }

/-- The related-channels scenario: u4 owns server s1 (containing channel
c1) and is invited to channel c2 of server s2. -/
def userU4 : UserDoc :=
  { id := "u4", availability := Availability.Offline, friends := [],
    invitesTo := [], invitesFrom := [],
    joinedChannels := [], invitesToChannels := ["c2"] }

/-- Store for the related-channels scenario. -/
def store4 : Store :=
  { users := [userU4],
    channels := [{ id := "c1", serverId := "s1" }, { id := "c2", serverId := "s2" }],
    servers := [{ id := "s1", owner := "u4" }, { id := "s2", owner := "b1" }] }

/-- Claim C4 evaluated at the scenario store: the handler computes the
non-empty channel union {c1, c2} (it reaches only `console.log`), yet the
response is a bare 200 with no channel list — the aggregated list is
never sent, contradicting the claimed 200-with-list response. -/
theorem getRelatedChannels_response_empty_eval :
    findUser store4 "u4" = some userU4 ∧
    getRelatedChannels store4 "u4" =
      { status := 200, body := none,
        logged := some [{ id := "c1", serverId := "s1" },
                        { id := "c2", serverId := "s2" }] } := by decide

/-- Handler for `DELETE /users/{id}` (`deleteUser`): look the user up, then
`User.findByIdAndRemove(userId)` — only the user's own document is
removed; no other document is touched. -/
def deleteUser (st : Store) (uid : String) : Store × Except ErrKind Unit :=
  match findUser st uid with
  | none => (st, Except.error ErrKind.NotFound)
  | some _ =>
    ({ st with users := st.users.filter (fun v => !(v.id == uid)) }, Except.ok ())

/-- The account to be deleted in the cleanup scenario. -/
def userA5 : UserDoc :=
  { id := "a5", availability := Availability.Offline, friends := ["b5"],
    invitesTo := [], invitesFrom := [], joinedChannels := [], invitesToChannels := [] }

/-- An identity that references `a5` in its relationship sets. -/
def userB5 : UserDoc :=
  { id := "b5", availability := Availability.Offline, friends := ["a5"],
    invitesTo := [], invitesFrom := ["a5"], joinedChannels := [], invitesToChannels := [] }

/-- Store for the deletion-cleanup scenario. -/
def store5 : Store := { users := [userA5, userB5], channels := [], servers := [] }

/-- Claim C5 evaluated at the cleanup scenario: deleting `a5` succeeds
and removes `a5`'s own document, but `b5` still holds `a5` in its
`friends` and `invitesFrom` sets afterwards — the claimed referential
cleanup does not happen. -/
theorem deleteUser_leaves_dangling_refs_eval :
    (deleteUser store5 "a5").2 = Except.ok () ∧
    findUser (deleteUser store5 "a5").1 "a5" = none ∧
    findUser (deleteUser store5 "a5").1 "b5" = some userB5 ∧
    "a5" ∈ userB5.friends ∧ "a5" ∈ userB5.invitesFrom := by decide

/-- A live transport connection: `App.clients` in `index.ts` keys sockets
by connection id.  Modelled from the spec: the binding of a connection to
its authenticated identity happens in `src/socket/events.ts`, which is
not among the provided sources; per spec section 4.1 the registry entry is
the pair (connection id, identity id). -/
structure ConnEntry where
  connId : String
  identityId : String
deriving DecidableEq

/-- Whole-process state: the document store plus the in-memory connection
registry (`App.clients`).  The login and logout handlers never read or
write the registry. -/
structure Sys where
  store : Store
  clients : List ConnEntry
deriving DecidableEq

/-- Outcome of a logout request: the HTTP status written to the response,
if any, and whether an exception escaped the handler. -/
structure LogoutRes where
  sentStatus : Option Nat
  raised : Bool
deriving DecidableEq

/-- Handler for `POST /users/logout` (`logout`), given the authenticated user id from
the session (`req.user`), if any.  With no authenticated user the guard
`if (!req.user) { res.send(200).end(); }` runs but does not return, so
execution falls through to `const { id } = req.user`, which throws a
TypeError on the absent user.  Otherwise the user's `availability` is set
to `Offline` and saved unconditionally — the connection registry is never
consulted.  An id that resolves to no document forwards the
'Could not find user.' error (`requestErrorHandler`, modelled from the
spec as answering with an error status). -/
def logout (sys : Sys) (auth : Option String) : Sys × LogoutRes :=
  match auth with
  | none => (sys, { sentStatus := some 200, raised := true })
  | some uid =>
    match findUser sys.store uid with
    | none => (sys, { sentStatus := none, raised := false })
    | some u =>
      ({ sys with store := saveUser sys.store { u with availability := Availability.Offline } },
       { sentStatus := some 200, raised := false })

/-- The post-authentication tail of `POST /users/login` (`login`):
credential checking is an external collaborator; once the identity is
authenticated the handler re-reads the user, sets `availability` to
`Online` and saves. -/
def login (sys : Sys) (uid : String) : Sys × Option Nat :=
  match findUser sys.store uid with
  | none => (sys, none)
  | some u =>
    ({ sys with store := saveUser sys.store { u with availability := Availability.Online } },
     some 200)

/-- Claim C8: for an authenticated identity that exists in the store and
still has a live connection registered, an explicit logout persists
`availability = Offline` anyway (the registry is passed through
untouched, and the handler never reads it), and login persists
`availability = Online`. -/
theorem logout_offline_login_online (sys : Sys) (uid : String) (u : UserDoc)
    (c : ConnEntry)
    (hu : findUser sys.store uid = some u)
    (hc : c ∈ sys.clients)
    (hcid : c.identityId = uid) :
    findUser (logout sys (some uid)).1.store uid
        = some { u with availability := Availability.Offline } ∧
    (logout sys (some uid)).1.clients = sys.clients ∧
    (logout sys (some uid)).2 = { sentStatus := some 200, raised := false } ∧
    findUser (login sys uid).1.store uid
        = some { u with availability := Availability.Online } := by
  have hid : u.id = uid := findUser_id_eq sys.store uid u hu
  rw [logout, login, hu]
  refine ⟨?_, rfl, rfl, ?_⟩
  · exact findUser_saveUser_self sys.store uid u _ hu hid
  · exact findUser_saveUser_self sys.store uid u _ hu hid

/-- The logged-in identity for the presence scenario. -/
def userU8 : UserDoc :=
  { id := "u8", availability := Availability.Online, friends := [],
    invitesTo := [], invitesFrom := [], joinedChannels := [], invitesToChannels := [] }

/-- Process state for the presence scenario: `u8` is stored and has one
live connection registered. -/
def sys8 : Sys :=
  { store := { users := [userU8], channels := [], servers := [] },
    clients := [{ connId := "sock1", identityId := "u8" }] }

/-- Witness for claim C8 at the one-connection process state. -/
theorem logout_offline_login_online_witness :
    (findUser sys8.store "u8" = some userU8 ∧
      { connId := "sock1", identityId := "u8" } ∈ sys8.clients ∧
      ConnEntry.identityId { connId := "sock1", identityId := "u8" } = "u8") ∧
    (findUser (logout sys8 (some "u8")).1.store "u8"
        = some { userU8 with availability := Availability.Offline } ∧
      (logout sys8 (some "u8")).1.clients = sys8.clients ∧
      (logout sys8 (some "u8")).2 = { sentStatus := some 200, raised := false } ∧
      findUser (login sys8 "u8").1.store "u8"
        = some { userU8 with availability := Availability.Online }) :=
  ⟨⟨by decide, by decide, by decide⟩,
    logout_offline_login_online sys8 "u8" userU8
      { connId := "sock1", identityId := "u8" } (by decide) (by decide) (by decide)⟩

/-- Claim C10 evaluated: a logout request with no authenticated user
sends status 200 and leaves the process state (every stored identity)
unchanged, but the handler then raises: the guard lacks a `return`, so
`const { id } = req.user` destructures `undefined` and throws. -/
theorem logout_unauthenticated_eval :
    logout sys8 none = (sys8, { sentStatus := some 200, raised := true }) := by decide
